import Mathlib

/-!
Verification of the energy-guessr core: a shallow embedding in Lean 4 of the
domain logic in `src/domain/energy.ts`, the dataset loader in
`src/hooks/useEnergyDataset.ts`, and the guess handler in
`src/components/EnergyGame.tsx`.  JavaScript numbers are modelled as `ℚ`
(the code performs only exact arithmetic on the values relevant to the
stated properties), JS records as association lists, and fallible or
`undefined`-producing operations as `Option`.
-/

/- ════════════════════  Name sanitizer (energy.ts, sanitizeEconomyName)  ════════════════════ -/

/-- Whitespace test matching the character class trimmed by
`String.prototype.trim` (ECMAScript WhiteSpace and LineTerminator). -/
def jsWhitespaceChar (c : Char) : Bool :=
  c.toNat = 32 || c.toNat = 9 || c.toNat = 10 || c.toNat = 13 ||
  c.toNat = 11 || c.toNat = 12 || c.toNat = 160 || c.toNat = 5760 ||
  (8192 ≤ c.toNat && c.toNat ≤ 8202) || c.toNat = 8232 || c.toNat = 8233 ||
  c.toNat = 8239 || c.toNat = 8287 || c.toNat = 12288 || c.toNat = 65279

/-- Model of `value.trim()`: drop leading and trailing whitespace. -/
def trimChars (l : List Char) : List Char :=
  ((l.dropWhile jsWhitespaceChar).reverse.dropWhile jsWhitespaceChar).reverse

/-- Canonical decomposition table modelling `String.prototype.normalize("NFD")`
restricted to the precomposed Latin-1 letters (the alphabet of economy display
names).  Each entry maps a precomposed character to its base letter followed by
its combining mark (U+0300 grave, U+0301 acute, U+0302 circumflex, U+0303
tilde, U+0308 diaeresis, U+030A ring, U+0327 cedilla). -/
def nfdTable : List (Char × List Char) := [
  ('À', ['A', Char.ofNat 768]), ('Á', ['A', Char.ofNat 769]),
  ('Â', ['A', Char.ofNat 770]), ('Ã', ['A', Char.ofNat 771]),
  ('Ä', ['A', Char.ofNat 776]), ('Å', ['A', Char.ofNat 778]),
  ('Ç', ['C', Char.ofNat 807]), ('È', ['E', Char.ofNat 768]),
  ('É', ['E', Char.ofNat 769]), ('Ê', ['E', Char.ofNat 770]),
  ('Ë', ['E', Char.ofNat 776]), ('Ì', ['I', Char.ofNat 768]),
  ('Í', ['I', Char.ofNat 769]), ('Î', ['I', Char.ofNat 770]),
  ('Ï', ['I', Char.ofNat 776]), ('Ñ', ['N', Char.ofNat 771]),
  ('Ò', ['O', Char.ofNat 768]), ('Ó', ['O', Char.ofNat 769]),
  ('Ô', ['O', Char.ofNat 770]), ('Õ', ['O', Char.ofNat 771]),
  ('Ö', ['O', Char.ofNat 776]), ('Ù', ['U', Char.ofNat 768]),
  ('Ú', ['U', Char.ofNat 769]), ('Û', ['U', Char.ofNat 770]),
  ('Ü', ['U', Char.ofNat 776]), ('Ý', ['Y', Char.ofNat 769]),
  ('à', ['a', Char.ofNat 768]), ('á', ['a', Char.ofNat 769]),
  ('â', ['a', Char.ofNat 770]), ('ã', ['a', Char.ofNat 771]),
  ('ä', ['a', Char.ofNat 776]), ('å', ['a', Char.ofNat 778]),
  ('ç', ['c', Char.ofNat 807]), ('è', ['e', Char.ofNat 768]),
  ('é', ['e', Char.ofNat 769]), ('ê', ['e', Char.ofNat 770]),
  ('ë', ['e', Char.ofNat 776]), ('ì', ['i', Char.ofNat 768]),
  ('í', ['i', Char.ofNat 769]), ('î', ['i', Char.ofNat 770]),
  ('ï', ['i', Char.ofNat 776]), ('ñ', ['n', Char.ofNat 771]),
  ('ò', ['o', Char.ofNat 768]), ('ó', ['o', Char.ofNat 769]),
  ('ô', ['o', Char.ofNat 770]), ('õ', ['o', Char.ofNat 771]),
  ('ö', ['o', Char.ofNat 776]), ('ù', ['u', Char.ofNat 768]),
  ('ú', ['u', Char.ofNat 769]), ('û', ['u', Char.ofNat 770]),
  ('ü', ['u', Char.ofNat 776]), ('ý', ['y', Char.ofNat 769]),
  ('ÿ', ['y', Char.ofNat 776])]

/-- Per-character NFD decomposition: table entry if present, the character
itself otherwise. -/
def nfdChar (c : Char) : List Char :=
  (nfdTable.lookup c).getD [c]

/-- Test for the combining diacritical marks block, the class removed by
`.replace(/[̀-ͯ]/g, "")`. -/
def combiningMark (c : Char) : Bool :=
  768 ≤ c.toNat && c.toNat ≤ 879

/-- Test for the punctuation class removed by `.replace(/[- '()]/g, "")`:
hyphen, space, apostrophe, parentheses. -/
def removedPunctChar (c : Char) : Bool :=
  c.toNat = 45 || c.toNat = 32 || c.toNat = 39 || c.toNat = 40 || c.toNat = 41

/-- Model of `String.prototype.toLowerCase` restricted to ASCII (after NFD
decomposition and mark stripping, the letters of economy names are ASCII). -/
def jsToLower (c : Char) : Char :=
  if 65 ≤ c.toNat ∧ c.toNat ≤ 90 then Char.ofNat (c.toNat + 32) else c

/-- Model of `sanitizeEconomyName` (energy.ts line 130): trim, NFD-normalize,
strip combining marks, remove the class `[- '()]`, lowercase. -/
def sanitizeEconomyName (s : String) : String :=
  String.mk ((((((trimChars s.data).flatMap nfdChar).filter
    (fun c => !combiningMark c)).filter
    (fun c => !removedPunctChar c)).map jsToLower))

/-- Character fixed by every stage of `sanitizeEconomyName`: not whitespace,
no NFD decomposition, not a combining mark, not removed punctuation, and
fixed by lowercasing. -/
def stableChar (c : Char) : Prop :=
  jsWhitespaceChar c = false ∧ nfdTable.lookup c = none ∧ combiningMark c = false ∧
  removedPunctChar c = false ∧ jsToLower c = c

/- ════════════════════  Numeric normalizer (useEnergyDataset.ts, toNumber)  ════════════════════ -/

/-- JavaScript number: finite rational, NaN, or a signed infinity. -/
inductive JSNum where
  | fin (q : ℚ)
  | nan
  | posInf
  | negInf
deriving DecidableEq, Repr

/-- JavaScript value as it can appear in parsed JSON data fed to `toNumber`. -/
inductive JSValue where
  | num (n : JSNum)
  | str (s : String)
  | bool (b : Bool)
  | null
  | undef
deriving DecidableEq, Repr

/-- Digit fold for the integer part of a numeric literal. -/
def digitsToNat (l : List Char) : ℕ :=
  l.foldl (fun acc c => acc * 10 + (c.toNat - 48)) 0

/-- Digit fold for the fractional part of a numeric literal. -/
def fracToRat (l : List Char) : ℚ :=
  l.foldr (fun c acc => (((c.toNat : ℚ) - 48) + acc) / 10) 0

/-- Unsigned decimal literal: digits, optionally with a decimal point, at
least one digit in total. -/
def parseUnsignedDec (l : List Char) : Option ℚ :=
  let intPart := l.takeWhile Char.isDigit
  let rest := l.drop intPart.length
  match rest with
  | [] => if intPart.isEmpty then none else some (digitsToNat intPart : ℚ)
  | c :: frac =>
    if c.toNat = 46 ∧ frac.all Char.isDigit ∧ (intPart ≠ [] ∨ frac ≠ []) then
      some ((digitsToNat intPart : ℚ) + fracToRat frac)
    else none

/-- Model of the ECMAScript `Number(string)` conversion, restricted to the
shapes present in the data files: optional sign, plain decimal literals and
`Infinity`; the empty string converts to `0`; anything else is NaN.  The
caller (`toNumber`) has already trimmed the string. -/
def jsParseNumber (s : String) : JSNum :=
  match s.data with
  | [] => .fin 0
  | c :: rest =>
    if c.toNat = 45 then
      if rest = ("Infinity").data then .negInf
      else match parseUnsignedDec rest with
        | some q => .fin (-q)
        | none => .nan
    else if c.toNat = 43 then
      if rest = ("Infinity").data then .posInf
      else match parseUnsignedDec rest with
        | some q => .fin q
        | none => .nan
    else if s.data = ("Infinity").data then .posInf
    else match parseUnsignedDec s.data with
      | some q => .fin q
      | none => .nan

/-- Model of the ECMAScript `Number(value)` coercion on non-string values. -/
def jsNumberOf (v : JSValue) : JSNum :=
  match v with
  | .num n => n
  | .str s => jsParseNumber (String.mk (trimChars s.data))
  | .bool b => .fin (if b then 1 else 0)
  | .null => .fin 0
  | .undef => .nan

/-- Model of `toNumber` (useEnergyDataset.ts line 58): a finite number is
returned as-is; a string has its commas stripped and is trimmed then parsed,
yielding 0 when the parse is not finite; any other value is numerically
coerced with 0 as the default.  The function is total: it always returns a
finite rational and cannot raise. -/
def toNumber (v : JSValue) : ℚ :=
  match v with
  | .num (.fin q) => q
  | .str s =>
    let cleaned := trimChars (s.data.filter (fun c => c.toNat ≠ 44))
    match jsParseNumber (String.mk cleaned) with
    | .fin q => q
    | _ => 0
  | v =>
    match jsNumberOf v with
    | .fin q => q
    | _ => 0

/- ════════════════════  Data model (energy.ts)  ════════════════════ -/

/-- One fuel entry of a sector (energy.ts, FuelValue), after normalization. -/
structure FuelValue where
  fuel : String
  value : ℚ
deriving DecidableEq, Repr

/-- One economy profile (energy.ts, EnergyProfile); the `sectors` record is
modelled as an association list from sector key to fuel list. -/
structure EnergyProfile where
  economy : String
  name : String
  chartImage : Option String
  sectors : List (String × List FuelValue)
deriving DecidableEq, Repr

/-- A one-year dataset (energy.ts, EnergyDataset). -/
structure EnergyDataset where
  year : ℤ
  scenario : String
  sectors : List String
  profiles : List EnergyProfile
deriving DecidableEq, Repr

/-- A scored guess record (energy.ts, EnergyGuess) as created by the game's
guess handler in EnergyGame.tsx. -/
structure EnergyGuess where
  name : String
  distance : ℚ
  proximity : ℤ
  total : ℚ
  totalProximity : ℤ
  production : ℚ
  tfc : ℚ
  elecGen : ℚ
  netImports : ℚ
deriving DecidableEq, Repr

/- ════════════════════  Profile scorer (energy.ts)  ════════════════════ -/

/-- First-occurrence deduplication, modelling `Array.from(new Set(xs))`. -/
def jsDedup {α : Type} [DecidableEq α] : List α → List α
  | [] => []
  | a :: l => a :: jsDedup (l.filter (fun x => x ≠ a))
termination_by l => l.length
decreasing_by
  exact Nat.lt_succ_of_le (l.length_filter_le _)

/-- Model of `valueForFuel` (energy.ts line 139): the value of the first fuel
entry of the sector whose sanitized fuel name matches the sanitized query, or
0 when the sector or fuel is absent. -/
def valueForFuel (sectors : List (String × List FuelValue)) (sectorKey : String)
    (fuel : String) : ℚ :=
  match (sectors.lookup sectorKey).getD [] |>.find?
      (fun item => sanitizeEconomyName item.fuel == sanitizeEconomyName fuel) with
  | some item => item.value
  | none => 0

/-- Fuel names listed under one sector of a profile (`[]` when absent). -/
def sectorFuelNames (p : EnergyProfile) (sectorKey : String) : List String :=
  ((p.sectors.lookup sectorKey).getD []).map (fun f => f.fuel)

/-- Model of `profileDistance` (energy.ts line 151): over the union of sector
keys of both profiles and, per sector, the union of fuel names of both
profiles, accumulate the absolute differences of the looked-up values. -/
def profileDistance (target guess : EnergyProfile) : ℚ :=
  let sectorKeys := jsDedup
    (target.sectors.map Prod.fst ++ guess.sectors.map Prod.fst)
  (sectorKeys.map (fun sectorKey =>
    let fuels := jsDedup
      (sectorFuelNames target sectorKey ++ sectorFuelNames guess sectorKey)
    (fuels.map (fun fuel =>
      |valueForFuel target.sectors sectorKey fuel -
        valueForFuel guess.sectors sectorKey fuel|)).sum)).sum

/-- Maximum profile distance over the ordered pairs of a profile list, the
accumulation performed by the nested loops of `getMaxDistance`. -/
def pairwiseMaxDistance : List EnergyProfile → ℚ
  | [] => 0
  | a :: rest => (rest.map (fun b => profileDistance a b)).foldl max (pairwiseMaxDistance rest)

/-- Model of `getMaxDistance` (energy.ts line 184): maximum pairwise profile
distance over the dataset, with `max || 1` collapsing 0 to 1. -/
def getMaxDistance (dataset : EnergyDataset) : ℚ :=
  let m := pairwiseMaxDistance dataset.profiles
  if m = 0 then 1 else m

/-- Model of `Math.round`: round half toward positive infinity. -/
def jsRound (q : ℚ) : ℤ :=
  ⌊q + 1 / 2⌋

/-- Model of `proximityFromDistance` (energy.ts line 197): clamp the distance
to `[0, maxDistance]` and round the proximity percentage. -/
def proximityFromDistance (distance maxDistance : ℚ) : ℤ :=
  let clamped := max (min distance maxDistance) 0
  jsRound ((maxDistance - clamped) / maxDistance * 100)

/-- Model of `totalEnergy` (energy.ts line 220): sum of every fuel value of
every sector.  (`Number(v) || 0` is the identity on the already-normalized
rational values.) -/
def totalEnergy (profile : EnergyProfile) : ℚ :=
  (profile.sectors.map (fun s => (s.2.map (fun f => f.value)).sum)).sum

/-- Model of `sectorTotal` (energy.ts line 228): sum of one sector's fuel
values, 0 when the sector is absent. -/
def sectorTotal (profile : EnergyProfile) (key : String) : ℚ :=
  (((profile.sectors.lookup key).getD []).map (fun f => f.value)).sum

/-- Model of `netImports` (energy.ts line 235). -/
def netImports (profile : EnergyProfile) : ℚ :=
  sectorTotal profile ("02_imports") - |sectorTotal profile ("03_exports")|

/-- Model of `findProfile` (energy.ts line 276): the first profile whose
sanitized display name matches the sanitized guess. -/
def findProfile (dataset : EnergyDataset) (guessName : String) : Option EnergyProfile :=
  dataset.profiles.find?
    (fun profile => sanitizeEconomyName profile.name == sanitizeEconomyName guessName)

/- ════════════════════  Daily target selector (energy.ts, chooseProfile)  ════════════════════ -/

/-- Modelled from the spec: `seedrandom.alea` is an external library (not in
src/); the spec requires only a deterministic seeded generator whose output
lies in `[0, 1)`.  This hash folds the seed characters modulo 2^32. -/
def aleaHash (seed : String) : ℕ :=
  seed.data.foldl (fun h c => (h * 33 + c.toNat) % 4294967296) 5381

/-- Modelled from the spec: the generator's first draw, a rational in
`[0, 1)` determined by the seed string alone. -/
def aleaRng (seed : String) : ℚ :=
  (aleaHash seed : ℚ) / 4294967296

/-- Model of `chooseProfile` (energy.ts line 267): floor of the draw scaled by
the profile count, used to index `dataset.profiles` (out-of-range access in
JS yields `undefined`, modelled by `Option`). -/
def chooseProfile (dataset : EnergyDataset) (dayString : String) : Option EnergyProfile :=
  dataset.profiles.get? (⌊aleaRng dayString * dataset.profiles.length⌋).toNat

/- ════════════════════  Bundled sample dataset (energy.ts, SAMPLE_DATASET)  ════════════════════ -/

/-- The hardcoded built-in sample dataset (energy.ts line 46). -/
def SAMPLE_DATASET : EnergyDataset :=
  { year := 2020
    scenario := "reference"
    sectors := ["07_total_primary_energy_supply", "12_total_final_consumption",
                "09_total_transformation_sector"]
    profiles := [
      { economy := "01_AUS", name := "Australia", chartImage := some ("01_AUS.png")
        sectors := [
          ("07_total_primary_energy_supply",
            [⟨"coal", 3200⟩, ⟨"gas", 1900⟩, ⟨"oil", 1600⟩, ⟨"renewables", 850⟩]),
          ("12_total_final_consumption",
            [⟨"industry", 1800⟩, ⟨"transport", 1400⟩, ⟨"buildings", 700⟩, ⟨"other", 450⟩]),
          ("09_total_transformation_sector",
            [⟨"power", 2100⟩, ⟨"heat", 200⟩, ⟨"bunkers", 120⟩])] },
      { economy := "02_CAN", name := "Canada", chartImage := some ("02_CAN.png")
        sectors := [
          ("07_total_primary_energy_supply",
            [⟨"coal", 800⟩, ⟨"gas", 2500⟩, ⟨"oil", 2200⟩, ⟨"renewables", 1600⟩]),
          ("12_total_final_consumption",
            [⟨"industry", 1700⟩, ⟨"transport", 1300⟩, ⟨"buildings", 900⟩, ⟨"other", 400⟩]),
          ("09_total_transformation_sector",
            [⟨"power", 1700⟩, ⟨"heat", 180⟩, ⟨"bunkers", 90⟩])] },
      { economy := "03_JPN", name := "Japan", chartImage := some ("03_JPN.png")
        sectors := [
          ("07_total_primary_energy_supply",
            [⟨"coal", 1800⟩, ⟨"gas", 2100⟩, ⟨"oil", 2600⟩, ⟨"renewables", 700⟩]),
          ("12_total_final_consumption",
            [⟨"industry", 1900⟩, ⟨"transport", 1100⟩, ⟨"buildings", 950⟩, ⟨"other", 380⟩]),
          ("09_total_transformation_sector",
            [⟨"power", 2200⟩, ⟨"heat", 160⟩, ⟨"bunkers", 150⟩])] }] }

/-- Model of `getSampleDataset` (energy.ts line 286). -/
def getSampleDataset : EnergyDataset := SAMPLE_DATASET

/- ════════════════════  Guess handler (EnergyGame.tsx, handleGuess)  ════════════════════ -/

/-- Model of `computeGuessMetrics` (EnergyGame.tsx line 74). -/
def computeGuessMetrics (profile : EnergyProfile) : ℚ × ℚ × ℚ × ℚ :=
  (sectorTotal profile ("12_total_final_consumption"),
   sectorTotal profile ("01_production"),
   sectorTotal profile ("18_electricity_output_in_gwh"),
   netImports profile)

/-- Model of the scoring core of `handleGuess` (EnergyGame.tsx line 251): the
guessed name is resolved via `findProfile` (`none` models the rejected
unknown-guess toast); the total-energy difference is normalized against the
live dataset's total range (at least 1); an exact sanitized-name match forces
proximity 100, otherwise the raw proximity is capped at 99. -/
def computeGuess (dataset : EnergyDataset) (targetProfile : EnergyProfile)
    (guessValue : String) : Option EnergyGuess :=
  match findProfile dataset guessValue with
  | none => none
  | some guessedProfile =>
    let targetTotal := totalEnergy targetProfile
    let datasetTotals := dataset.profiles.map totalEnergy
    let maxTotal := datasetTotals.foldl max targetTotal
    let minTotal := datasetTotals.foldl min targetTotal
    let totalRange := max (maxTotal - minTotal) 1
    let guessedTotal := totalEnergy guessedProfile
    let totalDiff := |guessedTotal - targetTotal|
    let isExactMatch :=
      sanitizeEconomyName guessedProfile.name == sanitizeEconomyName targetProfile.name
    let proximityRaw := proximityFromDistance totalDiff totalRange
    let proximity := if isExactMatch then 100 else min proximityRaw 99
    let metrics := computeGuessMetrics guessedProfile
    some { name := guessedProfile.name
           distance := totalDiff
           proximity := proximity
           total := guessedTotal
           totalProximity := proximity
           tfc := metrics.1
           production := metrics.2.1
           elecGen := metrics.2.2.1
           netImports := metrics.2.2.2 }

/- ════════════════════  Dataset loading (useEnergyDataset.ts)  ════════════════════ -/

/-- Raw fuel entry as parsed from JSON, before numeric normalization. -/
structure RawFuelValue where
  fuel : String
  value : JSValue
deriving DecidableEq, Repr

/-- Raw profile as parsed from JSON. -/
structure RawProfile where
  economy : String
  name : String
  chartImage : Option String
  sectors : List (String × List RawFuelValue)
deriving DecidableEq, Repr

/-- Raw one-year dataset as parsed from JSON. -/
structure RawDataset where
  year : ℤ
  scenario : String
  sectors : List String
  profiles : List RawProfile
deriving DecidableEq, Repr

/-- Raw multi-year container (useEnergyDataset.ts, MultiYear); the
`datasets` record is keyed by the year rendered as a string, modelled here
by the year itself. -/
structure MultiYearRaw where
  years : Option (List ℤ)
  defaultYear : Option ℤ
  datasets : List (ℤ × RawDataset)
  scenario : Option String
deriving DecidableEq, Repr

/-- A fetched data document: single-year dataset or multi-year container. -/
inductive RawPayload where
  | single (d : RawDataset)
  | multi (m : MultiYearRaw)
deriving DecidableEq, Repr

/-- Model of `normalizeDataset`'s per-profile step (useEnergyDataset.ts
line 72): every fuel value passes through `toNumber`. -/
def normalizeProfile (p : RawProfile) : EnergyProfile :=
  { economy := p.economy
    name := p.name
    chartImage := p.chartImage
    sectors := p.sectors.map (fun s => (s.1, s.2.map (fun f => ⟨f.fuel, toNumber f.value⟩))) }

/-- Model of `normalizeDataset` (useEnergyDataset.ts line 71). -/
def normalizeDataset (d : RawDataset) : EnergyDataset :=
  { year := d.year, scenario := d.scenario, sectors := d.sectors
    profiles := d.profiles.map normalizeProfile }

/-- One group of a year-grouped shard index. -/
structure ShardGroup where
  id : String
  file : String
  economies : List String
deriving DecidableEq, Repr

/-- Shard index document (useEnergyDataset.ts, IndexPayload); `Option`
distinguishes an absent field from a present empty one, and the
string-of-year record keys are modelled by the years themselves. -/
structure IndexPayload where
  years : List ℤ
  defaultYear : Option ℤ
  scenario : Option String
  files : Option (List (ℤ × String))
  groups : Option (List ShardGroup)
  year_groups : Option (List (ℤ × List ShardGroup))
deriving DecidableEq, Repr

/-- Insertion of a year into an ascending list, for `sortYears`. -/
def insertSorted (x : ℤ) : List ℤ → List ℤ
  | [] => [x]
  | y :: ys => if x ≤ y then x :: y :: ys else y :: insertSorted x ys

/-- Model of `.slice().sort((a, b) => a - b)`: ascending insertion sort. -/
def sortYears (l : List ℤ) : List ℤ :=
  l.foldr insertSorted []

/-- Model of the index-directory computation (useEnergyDataset.ts line 356):
everything up to and including the last slash of the index path, or the empty
string when there is none. -/
def indexDirOf (indexPath : String) : String :=
  String.mk ((indexPath.data.reverse.dropWhile (fun c => c.toNat ≠ 47)).reverse)

/-- Default year resolution (useEnergyDataset.ts line 360): the declared
default year when it is truthy (nonzero) and among the years, else the
smallest year. -/
def resolvedDefaultYear (index : IndexPayload) : ℤ :=
  let years := sortYears index.years
  match index.defaultYear with
  | some dy => if dy ≠ 0 ∧ dy ∈ years then dy else years.headD 0
  | none => years.headD 0

/-- Year chosen by `setYear` (useEnergyDataset.ts line 393): the requested
year when the index lists it, else the resolved default year. -/
def chosenYearOf (index : IndexPayload) (year : ℤ) : ℤ :=
  if year ∈ sortYears index.years then year else resolvedDefaultYear index

/-- Groups listed for one year of a year-grouped index (`[]` when absent). -/
def groupsForYear (index : IndexPayload) (y : ℤ) : List ShardGroup :=
  ((index.year_groups.getD []).lookup y).getD []

/-- Legacy per-year resolution (useEnergyDataset.ts line 436): direct lookup
of the year in `files`, a hard error (`none`) when absent. -/
def legacyResolve (index : IndexPayload) (indexPath : String) (chosen : ℤ) :
    Option String :=
  ((index.files.getD []).lookup chosen).map (fun fn => indexDirOf indexPath ++ fn)

/-- Model of the shard-path resolution performed by `applyIndexDataset` for a
`(year, preferredEconomy)` request (useEnergyDataset.ts lines 366-432 via
`setYear` and `loadGroupYear`): pick the year, pick the first group of that
year containing the preferred economy (falling back to the first group), and
concatenate the index directory with the group's file name.  The group search
runs only under the source's `if (preferredEconomy)` truthiness guard, so an
empty-string preferred economy is treated as absent.  `none` models the
thrown `No group shard found` / `No file mapping` errors. -/
def resolveShardPath (index : IndexPayload) (indexPath : String) (year : ℤ)
    (preferredEconomy : Option String) : Option String :=
  if (sortYears index.years).isEmpty then none else
  let chosen := chosenYearOf index year
  match index.year_groups with
  | some yg =>
    if yg.isEmpty then legacyResolve index indexPath chosen else
    let groups := groupsForYear index chosen
    let groupId := preferredEconomy.bind (fun e =>
      if e = "" then none
      else (groups.find? (fun g => g.economies.contains e)).map (fun g => g.id))
    let pickGroup : Option String :=
      match groupId with
      | some i =>
        if i ≠ "" ∧ (groups.find? (fun g => g.id == i)).isSome then some i
        else groups.head?.map (fun g => g.id)
      | none => groups.head?.map (fun g => g.id)
    let group : Option ShardGroup :=
      match pickGroup.bind (fun i => groups.find? (fun g => g.id == i)) with
      | some g => some g
      | none => groups.head?
    group.map (fun g => indexDirOf indexPath ++ g.file)
  | none => legacyResolve index indexPath chosen

/-- Dataset source tag (useEnergyDataset.ts, DatasetSource). -/
inductive DatasetSource where
  | userFile
  | sample
  | world
deriving DecidableEq, Repr

/-- Caller preference for the dataset family (useEnergyDataset.ts line 27). -/
inductive DatasetPreference where
  | apec
  | world
  | auto
deriving DecidableEq, Repr

/-- Candidate fetch mode. -/
inductive AttemptMode where
  | index
  | full
deriving DecidableEq, Repr

/-- One candidate source of the resolver's ordered attempt list. -/
structure Attempt where
  path : String
  source : DatasetSource
  mode : AttemptMode
deriving DecidableEq, Repr

/-- Path constant (useEnergyDataset.ts line 30). -/
def primaryPath : String := "data/energy-profiles-apec.json"

/-- Path constant (useEnergyDataset.ts line 31). -/
def primaryIndexPath : String := "data/energy-profiles-apec.index.json"

/-- Path constant (useEnergyDataset.ts line 32). -/
def worldPath : String := "data/energy-profiles-un-ei.json"

/-- Path constant (useEnergyDataset.ts line 33). -/
def worldIndexPath : String := "data/energy-profiles-un-ei.index.json"

/-- Path constant (useEnergyDataset.ts line 34). -/
def samplePath : String := "data/energy-profiles.sample.json"

/-- Model of the attempt-list construction (useEnergyDataset.ts lines
151-184): the preferred family's sharded index, its monolithic file, the
other family's index and monolithic file, then the bundled sample. -/
def buildAttempts (preferred : DatasetPreference) : List Attempt :=
  (match preferred with
   | .world =>
     [⟨worldIndexPath, .world, .index⟩, ⟨worldPath, .world, .full⟩,
      ⟨primaryIndexPath, .userFile, .index⟩, ⟨primaryPath, .userFile, .full⟩]
   | _ =>
     [⟨primaryIndexPath, .userFile, .index⟩, ⟨primaryPath, .userFile, .full⟩,
      ⟨worldIndexPath, .world, .index⟩, ⟨worldPath, .world, .full⟩]) ++
  [⟨samplePath, .sample, .full⟩]

/-- Fetch oracle: the network's answer per path.  `none` models any failed
or malformed fetch (non-ok response, JSON parse error, wrong shape). -/
structure FetchEnv where
  fetchFull : String → Option RawPayload
  fetchIndexRaw : String → Option IndexPayload

/-- Model of `fetchIndex` (useEnergyDataset.ts line 132): fetch plus the
payload validation that rejects an index without years or without any of
`files` / `groups` / `year_groups`. -/
def fetchIndex (env : FetchEnv) (path : String) : Option IndexPayload :=
  match env.fetchIndexRaw path with
  | none => none
  | some idx =>
    if idx.years = [] ∨ (idx.files = none ∧ idx.groups = none ∧ idx.year_groups = none)
    then none else some idx

/-- Shard fetch inside `loadGroupYear` / `loadYear`: the fetched document is
cast to a single-year dataset and normalized; a multi-year payload at a shard
path makes `normalizeDataset` throw (its `profiles` is `undefined`), which the
attempt loop catches, hence `none`. -/
def shardFetch (env : FetchEnv) (path : String) : Option EnergyDataset :=
  match env.fetchFull path with
  | some (.single d) => some (normalizeDataset d)
  | some (.multi _) => none
  | none => none

/-- Model of the initial load performed by `applyIndexDataset`
(useEnergyDataset.ts line 346): resolve the default year's shard and fetch
it.  `none` models any of its thrown errors. -/
def applyIndexInitial (env : FetchEnv) (index : IndexPayload) (indexPath : String) :
    Option EnergyDataset :=
  match resolveShardPath index indexPath (resolvedDefaultYear index) none with
  | none => none
  | some path => shardFetch env path

/-- Model of the synchronous part of `applyDataset` (useEnergyDataset.ts
line 269) for the initially displayed dataset: a single-year payload is
normalized; a multi-year payload with no datasets throws (`none`), otherwise
the default year's entry (or the first entry) is normalized. -/
def applyDatasetInitial (raw : RawPayload) : Option EnergyDataset :=
  match raw with
  | .single d => some (normalizeDataset d)
  | .multi m =>
    match m.datasets with
    | [] => none
    | e :: _ =>
      let years := sortYears (m.years.getD (m.datasets.map Prod.fst))
      let defaultYear :=
        match m.defaultYear with
        | some dy => if dy ≠ 0 ∧ (m.datasets.lookup dy).isSome then dy else years.headD 0
        | none => years.headD 0
      some (normalizeDataset ((m.datasets.lookup defaultYear).getD e.2))

/-- The resolver's result: which source family answered and the dataset now
displayed. -/
structure LoadOutcome where
  source : DatasetSource
  dataset : EnergyDataset
deriving DecidableEq, Repr

/-- Model of one iteration of the attempt loop (useEnergyDataset.ts lines
187-217): an index attempt must fetch a valid index and load its initial
shard; a full attempt must fetch and apply a dataset payload.  Any failure
is the caught exception, `none`. -/
def tryAttempt (env : FetchEnv) (a : Attempt) : Option LoadOutcome :=
  match a.mode with
  | .index =>
    (fetchIndex env a.path).bind (fun idx =>
      (applyIndexInitial env idx a.path).map (fun ds => ⟨a.source, ds⟩))
  | .full =>
    (env.fetchFull a.path).bind (fun raw =>
      (applyDatasetInitial raw).map (fun ds => ⟨a.source, ds⟩))

/-- Fold of the attempt loop: the first succeeding candidate wins and the
remaining candidates are not tried. -/
def runAttempts (env : FetchEnv) : List Attempt → Option LoadOutcome
  | [] => none
  | a :: rest =>
    match tryAttempt env a with
    | some outcome => some outcome
    | none => runAttempts env rest

/-- Model of `loadDataset` (useEnergyDataset.ts line 148): try the ordered
candidates; when every attempt has failed, fall back to the hardcoded
built-in sample dataset reported with source `sample`.  The function is
total: no failure escapes to the caller. -/
def loadDatasetModel (env : FetchEnv) (preferred : DatasetPreference) : LoadOutcome :=
  (runAttempts env (buildAttempts preferred)).getD ⟨.sample, getSampleDataset⟩

/- ════════════════════  Availability probe state update (useEnergyDataset.ts)  ════════════════════ -/

/-- Availability flags of the two dataset families. -/
structure Availability where
  apec : Bool
  world : Bool
deriving DecidableEq, Repr

/-- Hook state exposed to the UI (useEnergyDataset.ts, EnergyDatasetState);
the `setYear` callback is modelled as an uninterpreted function value. -/
structure EnergyDatasetState where
  dataset : Option EnergyDataset
  years : List ℤ
  selectedYear : Option ℤ
  setYear : ℤ → Option String → Unit
  maxDistance : ℚ
  loading : Bool
  error : Option String
  source : DatasetSource
  available : Availability

/-- The candidate paths probed with HEAD requests (useEnergyDataset.ts
line 220). -/
def probePaths : List (String × DatasetSource) :=
  [(primaryPath, .userFile), (primaryIndexPath, .userFile),
   (worldPath, .world), (worldIndexPath, .world)]

/-- Model of the availability probe (useEnergyDataset.ts lines 226-241):
each path whose HEAD request succeeds turns on its family's flag. -/
def probeAvailability (headOk : String → Bool) (a : Availability) : Availability :=
  probePaths.foldl
    (fun acc p =>
      if headOk p.1 then
        match p.2 with
        | .userFile => { acc with apec := true }
        | .world => { acc with world := true }
        | .sample => acc
      else acc) a

/-- Model of the state update executed when a dataset had already been
loaded before the probe finished (useEnergyDataset.ts lines 244-249):
`setState(prev => ({ ...prev, available: availability }))`. -/
def updateAvailability (prev : EnergyDatasetState) (availability : Availability) :
    EnergyDatasetState :=
  { prev with available := availability }

/-- Profile with total energy 100 for the spec's end-to-end scoring
example. -/
def c9AusProfile : EnergyProfile :=
  { economy := "01_AUS", name := "AUS", chartImage := none
    sectors := [("12_total_final_consumption", [⟨"industry", 100⟩])] }

/-- Profile with total energy 900 for the spec's end-to-end scoring
example. -/
def c9JpnProfile : EnergyProfile :=
  { economy := "03_JPN", name := "JPN", chartImage := none
    sectors := [("12_total_final_consumption", [⟨"industry", 900⟩])] }

/-- Two-profile dataset (totals 100 and 900) for the spec's end-to-end
scoring example: guessing AUS against target JPN normalizes over the range
900 - 100 = 800. -/
def c9Dataset : EnergyDataset :=
  { year := 2020, scenario := "reference"
    sectors := ["12_total_final_consumption"]
    profiles := [c9AusProfile, c9JpnProfile] }

/- ════════════════════  Helper lemmas  ════════════════════ -/

theorem mem_jsDedup {α : Type} [DecidableEq α] (x : α) (l : List α) :
    x ∈ jsDedup l ↔ x ∈ l := by
  induction l using jsDedup.induct with
  | case1 => simp [jsDedup]
  | case2 a l ih =>
    simp only [jsDedup, List.mem_cons, ih, List.mem_filter]
    by_cases hx : x = a
    · simp [hx]
    · simp [hx]

theorem nodup_jsDedup {α : Type} [DecidableEq α] (l : List α) :
    (jsDedup l).Nodup := by
  induction l using jsDedup.induct with
  | case1 => simp [jsDedup]
  | case2 a l ih =>
    rw [jsDedup]
    refine List.nodup_cons.mpr ⟨?_, ih⟩
    intro hmem
    have := (mem_jsDedup a _).mp hmem
    simp [List.mem_filter] at this

theorem list_sum_eq_zero_iff_of_nonneg (l : List ℚ) (h : ∀ x ∈ l, 0 ≤ x) :
    l.sum = 0 ↔ ∀ x ∈ l, x = 0 := by
  induction l with
  | nil => simp
  | cons a t ih =>
    have ha : 0 ≤ a := h a (List.mem_cons_self a t)
    have ht : ∀ x ∈ t, 0 ≤ x := fun x hx => h x (List.mem_cons_of_mem a hx)
    have hts : 0 ≤ t.sum := List.sum_nonneg ht
    simp only [List.sum_cons, List.mem_cons]
    rw [add_eq_zero_iff_of_nonneg ha hts, ih ht]
    constructor
    · rintro ⟨h1, h2⟩ x hx
      rcases hx with rfl | hx
      · exact h1
      · exact h2 x hx
    · intro hz
      exact ⟨hz a (Or.inl rfl), fun x hx => hz x (Or.inr hx)⟩

theorem sum_map_eq_of_mem_iff {α : Type} [DecidableEq α] (l₁ l₂ : List α) (f : α → ℚ)
    (h₁ : l₁.Nodup) (h₂ : l₂.Nodup) (h : ∀ x, x ∈ l₁ ↔ x ∈ l₂) :
    (l₁.map f).sum = (l₂.map f).sum := by
  have hfin : l₁.toFinset = l₂.toFinset := by
    ext x
    simp [List.mem_toFinset, h x]
  calc (l₁.map f).sum = l₁.toFinset.sum f := (List.sum_toFinset f h₁).symm
    _ = l₂.toFinset.sum f := by rw [hfin]
    _ = (l₂.map f).sum := List.sum_toFinset f h₂
def innerFuelSum (t g : EnergyProfile) (sk : String) : ℚ :=
  ((jsDedup (sectorFuelNames t sk ++ sectorFuelNames g sk)).map (fun fuel =>
    |valueForFuel t.sectors sk fuel - valueForFuel g.sectors sk fuel|)).sum

theorem profileDistance_eq_sum (t g : EnergyProfile) :
    profileDistance t g =
      ((jsDedup (t.sectors.map Prod.fst ++ g.sectors.map Prod.fst)).map
        (innerFuelSum t g)).sum := rfl

theorem innerFuelSum_comm (a b : EnergyProfile) (sk : String) :
    innerFuelSum a b sk = innerFuelSum b a sk := by
  unfold innerFuelSum
  rw [List.map_congr_left (fun fuel _ => abs_sub_comm
    (valueForFuel a.sectors sk fuel) (valueForFuel b.sectors sk fuel))]
  exact sum_map_eq_of_mem_iff _ _ _ (nodup_jsDedup _) (nodup_jsDedup _)
    (fun x => by simp only [mem_jsDedup, List.mem_append]; exact Or.comm)

theorem profileDistance_comm (a b : EnergyProfile) :
    profileDistance a b = profileDistance b a := by
  rw [profileDistance_eq_sum, profileDistance_eq_sum]
  rw [List.map_congr_left (fun sk _ => innerFuelSum_comm a b sk)]
  exact sum_map_eq_of_mem_iff _ _ _ (nodup_jsDedup _) (nodup_jsDedup _)
    (fun x => by simp only [mem_jsDedup, List.mem_append]; exact Or.comm)

theorem profileDistance_self (a : EnergyProfile) : profileDistance a a = 0 := by
  rw [profileDistance_eq_sum]
  apply List.sum_eq_zero
  intro x hx
  obtain ⟨sk, hsk, rfl⟩ := List.mem_map.mp hx
  apply List.sum_eq_zero
  intro y hy
  obtain ⟨f, hf, rfl⟩ := List.mem_map.mp hy
  simp

theorem innerFuelSum_nonneg (a b : EnergyProfile) (sk : String) :
    0 ≤ innerFuelSum a b sk := by
  apply List.sum_nonneg
  intro x hx
  obtain ⟨f, hf, rfl⟩ := List.mem_map.mp hx
  exact abs_nonneg _

theorem profileDistance_eq_zero_iff (a b : EnergyProfile) :
    profileDistance a b = 0 ↔
      ∀ sk ∈ a.sectors.map Prod.fst ++ b.sectors.map Prod.fst,
        ∀ f ∈ sectorFuelNames a sk ++ sectorFuelNames b sk,
          valueForFuel a.sectors sk f = valueForFuel b.sectors sk f := by
  rw [profileDistance_eq_sum]
  rw [list_sum_eq_zero_iff_of_nonneg]
  swap
  · intro x hx
    obtain ⟨sk, hsk, rfl⟩ := List.mem_map.mp hx
    exact innerFuelSum_nonneg a b sk
  constructor
  · intro h sk hsk f hf
    have hsk' : sk ∈ jsDedup (a.sectors.map Prod.fst ++ b.sectors.map Prod.fst) :=
      (mem_jsDedup _ _).mpr hsk
    have hzero : innerFuelSum a b sk = 0 :=
      h _ (List.mem_map.mpr ⟨sk, hsk', rfl⟩)
    unfold innerFuelSum at hzero
    rw [list_sum_eq_zero_iff_of_nonneg] at hzero
    swap
    · intro x hx
      obtain ⟨f', hf', rfl⟩ := List.mem_map.mp hx
      exact abs_nonneg _
    have hf' : f ∈ jsDedup (sectorFuelNames a sk ++ sectorFuelNames b sk) :=
      (mem_jsDedup _ _).mpr hf
    have := hzero _ (List.mem_map.mpr ⟨f, hf', rfl⟩)
    rw [abs_eq_zero, sub_eq_zero] at this
    exact this
  · intro h x hx
    obtain ⟨sk, hsk, rfl⟩ := List.mem_map.mp hx
    apply List.sum_eq_zero
    intro y hy
    obtain ⟨f, hf, rfl⟩ := List.mem_map.mp hy
    rw [abs_eq_zero, sub_eq_zero]
    exact h sk ((mem_jsDedup _ _).mp hsk) f ((mem_jsDedup _ _).mp hf)

/-- C1: `profileDistance` is symmetric, zero on identical profiles, and zero
exactly when the two profiles have identical values for every sector/fuel
combination appearing in either profile, where a profile's value at a
combination is the code's own accessor `valueForFuel` (first entry matching
the sanitized fuel name, 0 when the sector or fuel is absent). -/
theorem claim_C1_profileDistance_metric (a b : EnergyProfile) :
    profileDistance a b = profileDistance b a ∧
    profileDistance a a = 0 ∧
    (profileDistance a b = 0 ↔
      ∀ sk ∈ a.sectors.map Prod.fst ++ b.sectors.map Prod.fst,
        ∀ f ∈ sectorFuelNames a sk ++ sectorFuelNames b sk,
          valueForFuel a.sectors sk f = valueForFuel b.sectors sk f) :=
  ⟨profileDistance_comm a b, profileDistance_self a, profileDistance_eq_zero_iff a b⟩

theorem proximityFromDistance_eq (d m : ℚ) :
    proximityFromDistance d m = ⌊(m - max (min d m) 0) / m * 100 + 1 / 2⌋ := rfl

/-- C2: for every distance and every maxDistance of at least 1,
`proximityFromDistance` equals the rounded clamped percentage, is an integer
in `[0, 100]`, maps distance 0 to 100 and distance `maxDistance` to 0. -/
theorem claim_C2_proximity_bounds (d m : ℚ) (hm : 1 ≤ m) :
    proximityFromDistance d m = jsRound ((m - max (min d m) 0) / m * 100) ∧
    0 ≤ proximityFromDistance d m ∧
    proximityFromDistance d m ≤ 100 ∧
    proximityFromDistance 0 m = 100 ∧
    proximityFromDistance m m = 0 := by
  have hm0 : (0:ℚ) < m := by linarith
  have hc0 : (0:ℚ) ≤ max (min d m) 0 := le_max_right _ _
  have hcm : max (min d m) 0 ≤ m := max_le (min_le_right _ _) hm0.le
  refine ⟨rfl, ?_, ?_, ?_, ?_⟩
  · have hq : 0 ≤ (m - max (min d m) 0) / m * 100 := by
      have := div_nonneg (by linarith : (0:ℚ) ≤ m - max (min d m) 0) hm0.le
      nlinarith
    rw [proximityFromDistance_eq]
    exact Int.le_floor.mpr (by push_cast; linarith)
  · have hdiv : (m - max (min d m) 0) / m ≤ 1 := (div_le_one hm0).mpr (by linarith)
    have hq : (m - max (min d m) 0) / m * 100 ≤ 100 := by nlinarith
    rw [proximityFromDistance_eq]
    have hlt : ⌊(m - max (min d m) 0) / m * 100 + 1 / 2⌋ < 101 :=
      Int.floor_lt.mpr (by push_cast; linarith)
    omega
  · rw [proximityFromDistance_eq, min_eq_left hm0.le, max_self, sub_zero,
      div_self (ne_of_gt hm0)]
    norm_num
  · rw [proximityFromDistance_eq, min_self, max_eq_left hm0.le, sub_self,
      zero_div, zero_mul]
    norm_num

/-- Witness for C2 at distance 3, maxDistance 2. -/
theorem claim_C2_witness :
    proximityFromDistance 3 2 = jsRound ((2 - max (min 3 2) 0) / 2 * 100) ∧
    0 ≤ proximityFromDistance 3 2 ∧
    proximityFromDistance 3 2 ≤ 100 ∧
    proximityFromDistance 0 2 = 100 ∧
    proximityFromDistance 2 2 = 0 :=
  claim_C2_proximity_bounds 3 2 (by norm_num)

theorem char_toNat_ofNat_valid (n : ℕ) (h : n < 55296) : (Char.ofNat n).toNat = n := by
  have hv : n.isValidChar := Or.inl h
  rw [Char.ofNat, dif_pos hv]
  show (Char.ofNatAux n hv).toNat = n
  rw [Char.ofNatAux]
  simp [Char.toNat, UInt32.toNat, BitVec.toNat_ofNatLt]

theorem lookup_none_of_ascii_aux (t : List (Char × List Char))
    (ht : ∀ p ∈ t, 128 ≤ p.1.toNat) (c : Char) (hc : c.toNat < 128) :
    t.lookup c = none := by
  induction t with
  | nil => rfl
  | cons p rest ih =>
    have hp : 128 ≤ p.1.toNat := ht p (List.mem_cons_self p rest)
    have hne : (c == p.1) = false := by
      apply beq_false_of_ne
      intro hcp
      rw [hcp] at hc
      omega
    rw [List.lookup, hne]
    exact ih (fun q hq => ht q (List.mem_cons_of_mem p hq))

theorem nfdTable_keys_nonascii : ∀ p ∈ nfdTable, 128 ≤ p.1.toNat := by decide

theorem nfdTable_lookup_none_of_ascii (c : Char) (hc : c.toNat < 128) :
    nfdTable.lookup c = none :=
  lookup_none_of_ascii_aux nfdTable nfdTable_keys_nonascii c hc

theorem nfdTable_values_alpha_or_mark :
    ∀ p ∈ nfdTable, ∀ c ∈ p.2, combiningMark c = true ∨
      (97 ≤ c.toNat ∧ c.toNat ≤ 122) ∨ (65 ≤ c.toNat ∧ c.toNat ≤ 90) := by decide

theorem stable_of_lower_alpha (c : Char) (h1 : 97 ≤ c.toNat) (h2 : c.toNat ≤ 122) :
    stableChar c := by
  refine ⟨?_, ?_, ?_, ?_, ?_⟩
  · simp only [jsWhitespaceChar]
    simp only [Bool.or_eq_false_iff, Bool.and_eq_false_iff,
      decide_eq_false_iff_not]
    omega
  · exact nfdTable_lookup_none_of_ascii c (by omega)
  · simp only [combiningMark, Bool.and_eq_false_iff, decide_eq_false_iff_not]
    omega
  · simp only [removedPunctChar, Bool.or_eq_false_iff, decide_eq_false_iff_not]
    omega
  · rw [jsToLower, if_neg (by omega)]

theorem toNat_jsToLower_of_upper (c : Char) (h1 : 65 ≤ c.toNat) (h2 : c.toNat ≤ 90) :
    (jsToLower c).toNat = c.toNat + 32 := by
  rw [jsToLower, if_pos ⟨h1, h2⟩]
  exact char_toNat_ofNat_valid _ (by omega)

theorem stable_jsToLower (c : Char) (hw : jsWhitespaceChar c = false)
    (hl : nfdTable.lookup c = none) (hc : combiningMark c = false)
    (hp : removedPunctChar c = false) : stableChar (jsToLower c) := by
  by_cases hup : 65 ≤ c.toNat ∧ c.toNat ≤ 90
  · have := toNat_jsToLower_of_upper c hup.1 hup.2
    exact stable_of_lower_alpha _ (by omega) (by omega)
  · rw [jsToLower, if_neg hup]
    exact ⟨hw, hl, hc, hp, by rw [jsToLower, if_neg hup]⟩

theorem dropWhile_eq_self_of_false {p : Char → Bool} :
    ∀ l : List Char, (∀ c ∈ l, p c = false) → l.dropWhile p = l := by
  intro l h
  cases l with
  | nil => rfl
  | cons a t =>
    rw [List.dropWhile_cons, h a (List.mem_cons_self a t)]
    simp

theorem trimChars_eq_self (l : List Char) (h : ∀ c ∈ l, jsWhitespaceChar c = false) :
    trimChars l = l := by
  unfold trimChars
  rw [dropWhile_eq_self_of_false l h]
  rw [dropWhile_eq_self_of_false l.reverse (fun c hc => h c (List.mem_reverse.mp hc))]
  exact List.reverse_reverse l

theorem flatMap_nfd_eq_self :
    ∀ l : List Char, (∀ c ∈ l, nfdTable.lookup c = none) → l.flatMap nfdChar = l := by
  intro l h
  induction l with
  | nil => rfl
  | cons a t ih =>
    rw [List.flatMap_cons, nfdChar, h a (List.mem_cons_self a t)]
    rw [ih (fun c hc => h c (List.mem_cons_of_mem a hc))]
    rfl

theorem map_jsToLower_eq_self (l : List Char) (h : ∀ c ∈ l, jsToLower c = c) :
    l.map jsToLower = l := by
  rw [List.map_congr_left h]
  exact List.map_id' l

theorem mem_of_mem_trimChars {c : Char} {l : List Char} (h : c ∈ trimChars l) :
    c ∈ l := by
  unfold trimChars at h
  rw [List.mem_reverse] at h
  have h2 := (List.dropWhile_sublist _).mem h
  rw [List.mem_reverse] at h2
  exact (List.dropWhile_sublist _).mem h2

theorem mem_of_lookup_some {t : List (Char × List Char)} {k : Char} {v : List Char}
    (h : t.lookup k = some v) : (k, v) ∈ t := by
  induction t with
  | nil => exact absurd h (by simp [List.lookup])
  | cons p rest ih =>
    rw [List.lookup] at h
    rcases hbeq : k == p.1 with _ | _
    · rw [hbeq] at h
      exact List.mem_cons_of_mem p (ih h)
    · rw [hbeq] at h
      have hk : k = p.1 := by simpa using hbeq
      have hv : p.2 = v := by simpa using h
      have : (k, v) = p := by
        cases p
        simp_all
      rw [this]
      exact List.mem_cons_self p rest

theorem sanitize_data_eq (s : String) :
    (sanitizeEconomyName s).data =
      (((((trimChars s.data).flatMap nfdChar).filter
        (fun c => !combiningMark c)).filter
        (fun c => !removedPunctChar c)).map jsToLower) := rfl

theorem sanitize_chars_stable (s : String)
    (H : ∀ c ∈ s.data, jsWhitespaceChar c = true → c = ' ') :
    ∀ c ∈ (sanitizeEconomyName s).data, stableChar c := by
  intro c hc
  rw [sanitize_data_eq] at hc
  obtain ⟨c₀, hc₀, rfl⟩ := List.mem_map.mp hc
  have hpunct := List.mem_filter.mp hc₀
  have hcomb := List.mem_filter.mp hpunct.1
  have hp : removedPunctChar c₀ = false := by
    have := hpunct.2
    simpa using this
  have hcm : combiningMark c₀ = false := by
    have := hcomb.2
    simpa using this
  obtain ⟨d, hd, hcd⟩ := List.mem_flatMap.mp hcomb.1
  rcases hlk : nfdTable.lookup d with _ | v
  · rw [nfdChar, hlk] at hcd
    simp only [Option.getD_none, List.mem_singleton] at hcd
    subst hcd
    have hwd : jsWhitespaceChar c₀ = false := by
      by_cases hw : jsWhitespaceChar c₀ = true
      · have hsp := H c₀ (mem_of_mem_trimChars hd) hw
        rw [hsp] at hp
        exact absurd hp (by decide)
      · simpa using hw
    exact stable_jsToLower c₀ hwd hlk hcm hp
  · rw [nfdChar, hlk] at hcd
    simp only [Option.getD_some] at hcd
    have hmem : (d, v) ∈ nfdTable := mem_of_lookup_some hlk
    have halpha := nfdTable_values_alpha_or_mark (d, v) hmem c₀ hcd
    rcases halpha with hm | hlo | hup
    · rw [hm] at hcm
      exact absurd hcm (by simp)
    · have heq : jsToLower c₀ = c₀ := by
        rw [jsToLower, if_neg (by omega)]
      rw [heq]
      exact stable_of_lower_alpha c₀ hlo.1 hlo.2
    · have := toNat_jsToLower_of_upper c₀ hup.1 hup.2
      exact stable_of_lower_alpha _ (by omega) (by omega)

theorem sanitize_fixed_of_stable (t : String)
    (hst : ∀ c ∈ t.data, stableChar c) : sanitizeEconomyName t = t := by
  have hw : ∀ c ∈ t.data, jsWhitespaceChar c = false := fun c hc => (hst c hc).1
  have hl : ∀ c ∈ t.data, nfdTable.lookup c = none := fun c hc => (hst c hc).2.1
  have hcm : ∀ c ∈ t.data, combiningMark c = false := fun c hc => (hst c hc).2.2.1
  have hpu : ∀ c ∈ t.data, removedPunctChar c = false := fun c hc => (hst c hc).2.2.2.1
  have hlo : ∀ c ∈ t.data, jsToLower c = c := fun c hc => (hst c hc).2.2.2.2
  unfold sanitizeEconomyName
  rw [trimChars_eq_self t.data hw, flatMap_nfd_eq_self t.data hl]
  have h1 : t.data.filter (fun c => !combiningMark c) = t.data :=
    List.filter_eq_self.mpr (fun c hc => by rw [hcm c hc]; rfl)
  rw [h1]
  have h2 : t.data.filter (fun c => !removedPunctChar c) = t.data :=
    List.filter_eq_self.mpr (fun c hc => by rw [hpu c hc]; rfl)
  rw [h2]
  rw [map_jsToLower_eq_self t.data hlo]

theorem sanitize_idempotent_of_space_only (s : String)
    (H : ∀ c ∈ s.data, jsWhitespaceChar c = true → c = ' ') :
    sanitizeEconomyName (sanitizeEconomyName s) = sanitizeEconomyName s :=
  sanitize_fixed_of_stable _ (sanitize_chars_stable s H)

/-- C3 counterexample: `sanitizeEconomyName` is not idempotent on every
string.  Removing the hyphen from `"a\t-"` exposes a trailing tab that only
the second pass trims: the first pass yields `"a\t"`, the second `"a"`. -/
theorem claim_C3_counterexample :
    sanitizeEconomyName (sanitizeEconomyName ("a\t-")) ≠ sanitizeEconomyName ("a\t-") := by
  decide

/-- C3 (amended): `sanitizeEconomyName` is a pure function, idempotent on
every string whose whitespace characters are all plain spaces (the
punctuation-removal stage can expose an interior non-space whitespace
character at an end, which only the second pass trims), and it identifies
accent/case/punctuation variants of the same name. -/
theorem claim_C3_sanitize_idempotent_amended :
    (∀ s : String, (∀ c ∈ s.data, jsWhitespaceChar c = true → c = ' ') →
      sanitizeEconomyName (sanitizeEconomyName s) = sanitizeEconomyName s) ∧
    sanitizeEconomyName ("Côte d\x27Ivoire") = sanitizeEconomyName ("COTE DIVOIRE") :=
  ⟨sanitize_idempotent_of_space_only, by decide⟩

/-- Witness for C3 at the string `"Cote d Ivoire"`, whose whitespace is all
plain spaces. -/
theorem claim_C3_witness :
    sanitizeEconomyName (sanitizeEconomyName ("Cote d Ivoire")) =
      sanitizeEconomyName ("Cote d Ivoire") :=
  claim_C3_sanitize_idempotent_amended.1 ("Cote d Ivoire") (by decide)

/-- C4: the numeric normalizer is total (it returns a finite rational by its
type and cannot raise), returns finite numbers unchanged, parses
comma-formatted strings, and maps unparsable strings and non-finite numbers
to 0. -/
theorem claim_C4_toNumber_total :
    (∀ q : ℚ, toNumber (.num (.fin q)) = q) ∧
    toNumber (.str ("1,234")) = 1234 ∧
    toNumber (.str ("abc")) = 0 ∧
    toNumber (.num .nan) = 0 ∧
    toNumber (.num .posInf) = 0 ∧
    toNumber (.num .negInf) = 0 := by
  refine ⟨fun q => rfl, ?_, rfl, rfl, rfl, rfl⟩
  show ((1234 : ℕ) : ℚ) = 1234
  norm_num

theorem aleaHash_fold_lt (l : List Char) :
    ∀ h₀ : ℕ, h₀ < 4294967296 →
      l.foldl (fun h c => (h * 33 + c.toNat) % 4294967296) h₀ < 4294967296 := by
  induction l with
  | nil => intro h₀ hh; simpa using hh
  | cons c t ih =>
    intro h₀ hh
    rw [List.foldl_cons]
    exact ih _ (Nat.mod_lt _ (by norm_num))

theorem aleaHash_lt (seed : String) : aleaHash seed < 4294967296 :=
  aleaHash_fold_lt seed.data 5381 (by norm_num)

theorem aleaRng_nonneg (seed : String) : 0 ≤ aleaRng seed :=
  div_nonneg (by positivity) (by norm_num)

theorem aleaRng_lt_one (seed : String) : aleaRng seed < 1 := by
  rw [aleaRng, div_lt_one (by norm_num)]
  exact_mod_cast aleaHash_lt seed

/-- C5: the daily target selector is deterministic: it depends only on the
seed string and the ordering of `dataset.profiles`, and on a nonempty
profile list it picks the profile at a pseudo-random index in
`[0, profiles.length)` derived from the seeded generator. -/
theorem claim_C5_chooseProfile_deterministic :
    (∀ (ds₁ ds₂ : EnergyDataset) (seed : String), ds₁.profiles = ds₂.profiles →
      chooseProfile ds₁ seed = chooseProfile ds₂ seed) ∧
    (∀ (ds : EnergyDataset) (seed : String), ds.profiles ≠ [] →
      (⌊aleaRng seed * ds.profiles.length⌋).toNat < ds.profiles.length ∧
      chooseProfile ds seed =
        ds.profiles.get? (⌊aleaRng seed * ds.profiles.length⌋).toNat ∧
      (chooseProfile ds seed).isSome) := by
  constructor
  · intro ds₁ ds₂ seed h
    unfold chooseProfile
    rw [h]
  · intro ds seed hne
    have hl : 0 < ds.profiles.length := List.length_pos.mpr hne
    have hr0 := aleaRng_nonneg seed
    have hr1 := aleaRng_lt_one seed
    have hmul : aleaRng seed * ds.profiles.length < ds.profiles.length := by
      have hcast : (0:ℚ) < (ds.profiles.length : ℚ) := by exact_mod_cast hl
      nlinarith
    have hfl : ⌊aleaRng seed * ds.profiles.length⌋ < (ds.profiles.length : ℤ) :=
      Int.floor_lt.mpr (by push_cast; linarith)
    have hf0 : 0 ≤ ⌊aleaRng seed * ds.profiles.length⌋ :=
      Int.le_floor.mpr (by push_cast; positivity)
    have hidx : (⌊aleaRng seed * ds.profiles.length⌋).toNat < ds.profiles.length := by
      omega
    refine ⟨hidx, rfl, ?_⟩
    unfold chooseProfile
    rw [List.get?_eq_get hidx]
    rfl

/-- Witness for C5: the sample dataset with the same profile ordering (and a
different year) yields the same pick, and the pick exists. -/
theorem claim_C5_witness :
    chooseProfile SAMPLE_DATASET ("2024-01-01") =
      chooseProfile { SAMPLE_DATASET with year := 2030 } ("2024-01-01") ∧
    (chooseProfile SAMPLE_DATASET ("2024-01-01")).isSome :=
  ⟨claim_C5_chooseProfile_deterministic.1 SAMPLE_DATASET
      { SAMPLE_DATASET with year := 2030 } ("2024-01-01") rfl,
    (claim_C5_chooseProfile_deterministic.2 SAMPLE_DATASET ("2024-01-01")
      (List.cons_ne_nil _ _)).2.2⟩

/-- C6: the resolver tries its candidates strictly in the order preferred
index, preferred monolithic, other index, other monolithic, bundled sample;
any candidate failure (including a malformed primary sharded index, modelled
by `fetchIndexRaw = none`) advances to the next candidate; and when every
fetch fails the resolver returns the hardcoded built-in sample dataset with
source `sample`.  `loadDatasetModel` is a total function, so no exception
reaches the caller. -/
theorem claim_C6_resolver_fallback :
    (buildAttempts .apec =
      [⟨primaryIndexPath, .userFile, .index⟩, ⟨primaryPath, .userFile, .full⟩,
       ⟨worldIndexPath, .world, .index⟩, ⟨worldPath, .world, .full⟩,
       ⟨samplePath, .sample, .full⟩]) ∧
    (buildAttempts .world =
      [⟨worldIndexPath, .world, .index⟩, ⟨worldPath, .world, .full⟩,
       ⟨primaryIndexPath, .userFile, .index⟩, ⟨primaryPath, .userFile, .full⟩,
       ⟨samplePath, .sample, .full⟩]) ∧
    (∀ (env : FetchEnv) (preferred : DatasetPreference),
      (∀ p, env.fetchFull p = none) → (∀ p, env.fetchIndexRaw p = none) →
      loadDatasetModel env preferred = ⟨.sample, getSampleDataset⟩) ∧
    (∀ (env : FetchEnv) (d : RawDataset),
      env.fetchIndexRaw primaryIndexPath = none →
      env.fetchFull primaryPath = some (.single d) →
      loadDatasetModel env .apec = ⟨.userFile, normalizeDataset d⟩) := by
  refine ⟨rfl, rfl, ?_, ?_⟩
  · intro env preferred hFull hIdx
    cases preferred <;>
      simp [loadDatasetModel, buildAttempts, runAttempts, tryAttempt,
        fetchIndex, hFull, hIdx]
  · intro env d hIdx hFull
    simp [loadDatasetModel, buildAttempts, runAttempts, tryAttempt,
      fetchIndex, hIdx, hFull, applyDatasetInitial]

/-- Witness for C6: with every fetch failing the built-in sample is
returned, and with a malformed primary index but a good primary monolithic
file the resolver falls through to the monolithic dataset. -/
theorem claim_C6_witness :
    loadDatasetModel ⟨fun _ => none, fun _ => none⟩ .apec =
      ⟨.sample, getSampleDataset⟩ ∧
    loadDatasetModel
        ⟨fun p => if p = primaryPath then some (.single ⟨2020, "reference", [], []⟩) else none,
         fun _ => none⟩ .apec =
      ⟨.userFile, normalizeDataset ⟨2020, "reference", [], []⟩⟩ :=
  ⟨claim_C6_resolver_fallback.2.2.1 ⟨fun _ => none, fun _ => none⟩ .apec
      (fun _ => rfl) (fun _ => rfl),
    claim_C6_resolver_fallback.2.2.2
      ⟨fun p => if p = primaryPath then some (.single ⟨2020, "reference", [], []⟩) else none,
       fun _ => none⟩ ⟨2020, "reference", [], []⟩ rfl (by simp)⟩

theorem mem_insertSorted (x y : ℤ) (l : List ℤ) :
    x ∈ insertSorted y l ↔ x = y ∨ x ∈ l := by
  induction l with
  | nil => simp [insertSorted]
  | cons a t ih =>
    rw [insertSorted]
    by_cases h : y ≤ a
    · simp [h]
    · rw [if_neg h]
      simp only [List.mem_cons, ih]
      tauto

theorem mem_sortYears (x : ℤ) (l : List ℤ) : x ∈ sortYears l ↔ x ∈ l := by
  induction l with
  | nil => simp [sortYears]
  | cons a t ih =>
    rw [sortYears, List.foldr_cons]
    rw [mem_insertSorted]
    rw [List.mem_cons]
    rw [show List.foldr insertSorted [] t = sortYears t from rfl] at *
    rw [ih]

theorem find?_by_id_of_nodup (l : List ShardGroup) (g : ShardGroup)
    (hnd : (l.map (fun x => x.id)).Nodup) (hg : g ∈ l) :
    l.find? (fun x => x.id == g.id) = some g := by
  induction l with
  | nil => cases hg
  | cons a t ih =>
    rw [List.map_cons, List.nodup_cons] at hnd
    rcases List.mem_cons.mp hg with rfl | hgt
    · rw [List.find?_cons_of_pos _ (by simp)]
    · have hne : a.id ≠ g.id := by
        intro he
        exact hnd.1 (he ▸ List.mem_map.mpr ⟨g, hgt, rfl⟩)
      rw [List.find?_cons_of_neg _ (by simpa using hne)]
      exact ih hnd.2 hgt

theorem chosenYearOf_spec (index : IndexPayload) (year : ℤ) :
    (year ∈ index.years → chosenYearOf index year = year) ∧
    (year ∉ index.years → chosenYearOf index year = resolvedDefaultYear index) := by
  constructor
  · intro h
    rw [chosenYearOf, if_pos ((mem_sortYears year index.years).mpr h)]
  · intro h
    rw [chosenYearOf, if_neg (fun hc => h ((mem_sortYears year index.years).mp hc))]

theorem resolveShardPath_found (index : IndexPayload) (indexPath : String) (year : ℤ)
    (e : String) (yg : List (ℤ × List ShardGroup)) (g : ShardGroup)
    (hyg : index.year_groups = some yg) (hne : yg ≠ [])
    (hys : sortYears index.years ≠ []) (hee : e ≠ "")
    (hnd : ((groupsForYear index (chosenYearOf index year)).map (fun x => x.id)).Nodup)
    (hid : ∀ h ∈ groupsForYear index (chosenYearOf index year), h.id ≠ "")
    (hfind : (groupsForYear index (chosenYearOf index year)).find?
        (fun h => h.economies.contains e) = some g) :
    resolveShardPath index indexPath year (some e) =
      some (indexDirOf indexPath ++ g.file) := by
  have hg : g ∈ groupsForYear index (chosenYearOf index year) :=
    List.mem_of_find?_eq_some hfind
  have hgid : g.id ≠ "" := hid g hg
  have hfid : (groupsForYear index (chosenYearOf index year)).find?
      (fun x => x.id == g.id) = some g := find?_by_id_of_nodup _ g hnd hg
  rw [resolveShardPath]
  rw [if_neg (by simpa [List.isEmpty_iff] using hys)]
  rw [hyg]
  simp only [Option.bind_some, Option.map_some]
  rw [if_neg (by simpa [List.isEmpty_iff] using hne)]
  simp only [Option.bind_eq_bind, Option.some_bind]
  rw [if_neg hee]
  simp only [hfind, Option.map_some, Option.map_some']
  rw [if_pos ⟨hgid, by rw [hfid]; rfl⟩]
  simp only [Option.some_bind, hfid]
  rfl

theorem resolveShardPath_fallback (index : IndexPayload) (indexPath : String)
    (year : ℤ) (pe : Option String) (yg : List (ℤ × List ShardGroup))
    (g0 : ShardGroup) (gs : List ShardGroup)
    (hyg : index.year_groups = some yg) (hne : yg ≠ [])
    (hys : sortYears index.years ≠ [])
    (hgroups : groupsForYear index (chosenYearOf index year) = g0 :: gs)
    (hmiss : pe = none ∨ pe = some "" ∨
      ∃ e, pe = some e ∧ ∀ h ∈ g0 :: gs, e ∉ h.economies) :
    resolveShardPath index indexPath year pe = some (indexDirOf indexPath ++ g0.file) := by
  have hhead : (groupsForYear index (chosenYearOf index year)).find?
      (fun x => x.id == g0.id) = some g0 := by
    rw [hgroups]
    exact List.find?_cons_of_pos _ (by simp)
  have hgid : pe.bind (fun e =>
      if e = "" then none
      else ((groupsForYear index (chosenYearOf index year)).find?
        (fun h => h.economies.contains e)).map (fun h => h.id)) = none := by
    rcases hmiss with rfl | rfl | ⟨e, rfl, hnomem⟩
    · rfl
    · simp
    · have hnone : (groupsForYear index (chosenYearOf index year)).find?
          (fun h => h.economies.contains e) = none := by
        rw [hgroups]
        apply List.find?_eq_none.mpr
        intro x hx
        simpa using hnomem x hx
      simp only [Option.some_bind]
      by_cases he : e = ""
      · rw [if_pos he]
      · rw [if_neg he, hnone]
        rfl
  rw [resolveShardPath]
  rw [if_neg (by simpa [List.isEmpty_iff] using hys)]
  rw [hyg]
  simp only [Option.bind_eq_bind]
  rw [if_neg (by simpa [List.isEmpty_iff] using hne)]
  rw [hgid]
  rw [hgroups]
  simp only [List.head?_cons, Option.map_some', Option.some_bind]
  rw [← hgroups, hhead]
  rfl

/-- C7: for a year-grouped shard index, the requested year is used when it
is listed, else the default year; the first group of the chosen year whose
economies contain the preferred economy is selected (the group search runs
only for a truthy, hence nonempty, preferred economy, mirroring the source's
`if (preferredEconomy)` guard), with fallback to the first group when no
preferred economy is given, when it is the falsy empty string, or when none
matches; the resolved path is the index directory concatenated with the
group file name.  Stated under the index well-formedness hypotheses that
group ids are distinct and nonempty (JS falsiness of `""` and duplicate ids
would reroute the id lookup), and including the spec's concrete example. -/
theorem claim_C7_year_grouped_resolution :
    (∀ (index : IndexPayload) (year : ℤ),
      (year ∈ index.years → chosenYearOf index year = year) ∧
      (year ∉ index.years → chosenYearOf index year = resolvedDefaultYear index)) ∧
    (∀ (index : IndexPayload) (indexPath : String) (year : ℤ) (e : String)
        (yg : List (ℤ × List ShardGroup)) (g : ShardGroup),
      index.year_groups = some yg → yg ≠ [] → sortYears index.years ≠ [] →
      e ≠ "" →
      ((groupsForYear index (chosenYearOf index year)).map (fun x => x.id)).Nodup →
      (∀ h ∈ groupsForYear index (chosenYearOf index year), h.id ≠ "") →
      (groupsForYear index (chosenYearOf index year)).find?
          (fun h => h.economies.contains e) = some g →
      resolveShardPath index indexPath year (some e) =
        some (indexDirOf indexPath ++ g.file)) ∧
    (∀ (index : IndexPayload) (indexPath : String) (year : ℤ) (pe : Option String)
        (yg : List (ℤ × List ShardGroup)) (g0 : ShardGroup) (gs : List ShardGroup),
      index.year_groups = some yg → yg ≠ [] → sortYears index.years ≠ [] →
      groupsForYear index (chosenYearOf index year) = g0 :: gs →
      (pe = none ∨ pe = some "" ∨
        ∃ e, pe = some e ∧ ∀ h ∈ g0 :: gs, e ∉ h.economies) →
      resolveShardPath index indexPath year pe =
        some (indexDirOf indexPath ++ g0.file)) ∧
    resolveShardPath
        ⟨[2020], none, none, none, none, some [(2020, [⟨"g1", "a.json", ["AUS"]⟩])]⟩
        ("data/idx.json") 2020 (some ("AUS")) = some ("data/a.json") := by
  refine ⟨chosenYearOf_spec, ?_, ?_, ?_⟩
  · intro index indexPath year e yg g hyg hne hys hee hnd hid hfind
    exact resolveShardPath_found index indexPath year e yg g hyg hne hys hee hnd
      hid hfind
  · intro index indexPath year pe yg g0 gs hyg hne hys hgroups hmiss
    exact resolveShardPath_fallback index indexPath year pe yg g0 gs hyg hne hys
      hgroups hmiss
  · decide

/-- Witness for C7: a two-group index resolves the preferred economy's
group, falls back to the first group without a preference, falls back to the
first group for the falsy empty-string preference even when a group lists
`""` as an economy, and keeps a listed year. -/
theorem claim_C7_witness :
    resolveShardPath
        ⟨[2020], none, none, none, none,
          some [(2020, [⟨"g1", "a.json", ["AUS"]⟩, ⟨"g2", "b.json", ["JPN"]⟩])]⟩
        ("data/idx.json") 2020 (some ("JPN")) = some ("data/b.json") ∧
    resolveShardPath
        ⟨[2020], none, none, none, none,
          some [(2020, [⟨"g1", "a.json", ["AUS"]⟩, ⟨"g2", "b.json", ["JPN"]⟩])]⟩
        ("data/idx.json") 2020 none = some ("data/a.json") ∧
    resolveShardPath
        ⟨[2020], none, none, none, none,
          some [(2020, [⟨"g1", "a.json", ["AUS"]⟩, ⟨"g2", "b.json", [""]⟩])]⟩
        ("data/idx.json") 2020 (some ("")) = some ("data/a.json") ∧
    chosenYearOf
        ⟨[2020], none, none, none, none,
          some [(2020, [⟨"g1", "a.json", ["AUS"]⟩, ⟨"g2", "b.json", ["JPN"]⟩])]⟩
        2020 = 2020 := by
  refine ⟨?_, ?_, ?_, ?_⟩
  · exact claim_C7_year_grouped_resolution.2.1 _ ("data/idx.json") 2020 ("JPN")
      [(2020, [⟨"g1", "a.json", ["AUS"]⟩, ⟨"g2", "b.json", ["JPN"]⟩])]
      ⟨"g2", "b.json", ["JPN"]⟩ rfl (by decide) (by decide) (by decide)
      (by decide) (by decide) (by decide)
  · exact claim_C7_year_grouped_resolution.2.2.1 _ ("data/idx.json") 2020 none
      [(2020, [⟨"g1", "a.json", ["AUS"]⟩, ⟨"g2", "b.json", ["JPN"]⟩])]
      ⟨"g1", "a.json", ["AUS"]⟩ [⟨"g2", "b.json", ["JPN"]⟩] rfl (by decide)
      (by decide) (by decide) (Or.inl rfl)
  · exact claim_C7_year_grouped_resolution.2.2.1 _ ("data/idx.json") 2020
      (some (""))
      [(2020, [⟨"g1", "a.json", ["AUS"]⟩, ⟨"g2", "b.json", [""]⟩])]
      ⟨"g1", "a.json", ["AUS"]⟩ [⟨"g2", "b.json", [""]⟩] rfl (by decide)
      (by decide) (by decide) (Or.inr (Or.inl rfl))
  · exact (claim_C7_year_grouped_resolution.1 _ 2020).1 (by decide)

/-- C8: the availability probe's state update after a successful load
changes only the `available` flags: dataset, years, selectedYear, setYear,
maxDistance, loading, error and source are untouched. -/
theorem claim_C8_probe_frame (s : EnergyDatasetState) (headOk : String → Bool)
    (a : Availability) :
    (updateAvailability s (probeAvailability headOk a)).dataset = s.dataset ∧
    (updateAvailability s (probeAvailability headOk a)).years = s.years ∧
    (updateAvailability s (probeAvailability headOk a)).selectedYear = s.selectedYear ∧
    (updateAvailability s (probeAvailability headOk a)).setYear = s.setYear ∧
    (updateAvailability s (probeAvailability headOk a)).maxDistance = s.maxDistance ∧
    (updateAvailability s (probeAvailability headOk a)).loading = s.loading ∧
    (updateAvailability s (probeAvailability headOk a)).error = s.error ∧
    (updateAvailability s (probeAvailability headOk a)).source = s.source ∧
    (updateAvailability s (probeAvailability headOk a)).available =
      probeAvailability headOk a :=
  ⟨rfl, rfl, rfl, rfl, rfl, rfl, rfl, rfl, rfl⟩

theorem totalEnergy_c9Aus : totalEnergy c9AusProfile = 100 := by
  norm_num [totalEnergy, c9AusProfile]

theorem totalEnergy_c9Jpn : totalEnergy c9JpnProfile = 900 := by
  norm_num [totalEnergy, c9JpnProfile]

theorem c9_totalRange :
    max ((c9Dataset.profiles.map totalEnergy).foldl max (totalEnergy c9JpnProfile) -
      (c9Dataset.profiles.map totalEnergy).foldl min (totalEnergy c9JpnProfile)) 1 =
      800 := by
  have hmap : c9Dataset.profiles.map totalEnergy = [100, 900] := by
    simp [c9Dataset, totalEnergy_c9Aus, totalEnergy_c9Jpn]
  rw [hmap, totalEnergy_c9Jpn]
  simp only [List.foldl_cons, List.foldl_nil]
  rw [max_eq_left (by norm_num : (100:ℚ) ≤ 900), max_self]
  rw [min_eq_right (by norm_num : (100:ℚ) ≤ 900), min_eq_left (by norm_num : (100:ℚ) ≤ 900)]
  rw [show (900:ℚ) - 100 = 800 by norm_num]
  exact max_eq_left (by norm_num)

theorem c9_proximity_zero : proximityFromDistance 800 800 = 0 := by
  rw [proximityFromDistance_eq, min_self, max_eq_left (by norm_num : (0:ℚ) ≤ 800)]
  norm_num

/-- C9: a guess resolving to a profile whose sanitized name equals the
sanitized target name is scored with proximity 100 regardless of its numeric
distance; and in the end-to-end flow on a dataset with totals 100 (AUS) and
900 (JPN), guessing AUS against target JPN uses normalization range 800 and
yields total difference 800 and proximity 0. -/
theorem claim_C9_exact_match_and_end_to_end :
    (∀ (ds : EnergyDataset) (t : EnergyProfile) (gv : String) (p : EnergyProfile),
      findProfile ds gv = some p →
      sanitizeEconomyName p.name = sanitizeEconomyName t.name →
      ∃ g, computeGuess ds t gv = some g ∧ g.proximity = 100) ∧
    (∃ g, computeGuess c9Dataset c9JpnProfile ("AUS") = some g ∧
      g.distance = 800 ∧ g.proximity = 0 ∧ g.totalProximity = 0) := by
  constructor
  · intro ds t gv p hfind hname
    simp only [computeGuess, hfind]
    refine ⟨_, rfl, ?_⟩
    simp [hname]
  · have hfind : findProfile c9Dataset ("AUS") = some c9AusProfile := rfl
    have hdist : |totalEnergy c9AusProfile - totalEnergy c9JpnProfile| = 800 := by
      rw [totalEnergy_c9Aus, totalEnergy_c9Jpn]
      norm_num
    have hbeq : (sanitizeEconomyName c9AusProfile.name ==
        sanitizeEconomyName c9JpnProfile.name) = false := by decide
    have hfield : (if (sanitizeEconomyName c9AusProfile.name ==
          sanitizeEconomyName c9JpnProfile.name) = true then (100:ℤ)
        else min (proximityFromDistance
          |totalEnergy c9AusProfile - totalEnergy c9JpnProfile|
          (max ((c9Dataset.profiles.map totalEnergy).foldl max
              (totalEnergy c9JpnProfile) -
            (c9Dataset.profiles.map totalEnergy).foldl min
              (totalEnergy c9JpnProfile)) 1)) 99) = 0 := by
      rw [hbeq]
      simp only [Bool.false_eq_true, if_false]
      rw [hdist, c9_totalRange, c9_proximity_zero]
      norm_num
    simp only [computeGuess, hfind]
    exact ⟨_, rfl, hdist, hfield, hfield⟩

/-- Witness for C9: guessing the target itself scores proximity 100. -/
theorem claim_C9_witness :
    ∃ g, computeGuess c9Dataset c9JpnProfile ("JPN") = some g ∧ g.proximity = 100 :=
  claim_C9_exact_match_and_end_to_end.1 c9Dataset c9JpnProfile ("JPN") c9JpnProfile
    rfl rfl

/-- C10: for every guess record created by the guess handler, proximity is
100 exactly when the sanitized guessed name equals the sanitized target
name, every non-exact guess is capped at proximity 99, and the proximity
and totalProximity fields are always equal. -/
theorem claim_C10_proximity_invariants :
    ∀ (ds : EnergyDataset) (t : EnergyProfile) (gv : String) (p : EnergyProfile)
      (g : EnergyGuess),
      findProfile ds gv = some p → computeGuess ds t gv = some g →
      (g.proximity = 100 ↔
        sanitizeEconomyName p.name = sanitizeEconomyName t.name) ∧
      (sanitizeEconomyName p.name ≠ sanitizeEconomyName t.name → g.proximity ≤ 99) ∧
      g.totalProximity = g.proximity := by
  intro ds t gv p g hfind hg
  simp only [computeGuess, hfind, Option.some_inj] at hg
  subst hg
  dsimp only
  by_cases hname : sanitizeEconomyName p.name = sanitizeEconomyName t.name
  · refine ⟨?_, ?_, rfl⟩
    · simp [hname]
    · intro hc
      exact absurd hname hc
  · have hbeq : (sanitizeEconomyName p.name == sanitizeEconomyName t.name) = false :=
      beq_false_of_ne hname
    have hle : (if (sanitizeEconomyName p.name ==
          sanitizeEconomyName t.name) = true then (100:ℤ)
        else min (proximityFromDistance |totalEnergy p - totalEnergy t|
          (max ((ds.profiles.map totalEnergy).foldl max (totalEnergy t) -
            (ds.profiles.map totalEnergy).foldl min (totalEnergy t)) 1)) 99) ≤ 99 := by
      rw [hbeq]
      simp only [Bool.false_eq_true, if_false]
      exact min_le_right _ _
    refine ⟨?_, fun _ => hle, rfl⟩
    constructor
    · intro h100
      rw [h100] at hle
      omega
    · intro hc
      exact absurd hc hname

/-- Witness for C10 at an exact-match guess on the end-to-end dataset. -/
theorem claim_C10_witness :
    ∃ g, computeGuess c9Dataset c9JpnProfile ("JPN") = some g ∧
      (g.proximity = 100 ↔ sanitizeEconomyName c9JpnProfile.name =
        sanitizeEconomyName c9JpnProfile.name) ∧
      g.totalProximity = g.proximity := by
  refine ⟨_, rfl, ?_⟩
  have h := claim_C10_proximity_invariants c9Dataset c9JpnProfile ("JPN")
    c9JpnProfile _ rfl rfl
  exact ⟨h.1, h.2.2⟩
